import Mathlib

/-!
# Verification of the NeuroBlu feedback-processing pipeline core

Shallow embedding, in Lean 4, of the decision logic of the pipeline
scripts (`extract_feedback.py`, `enrich_metadata.py`, `sync_to_sheets.py`):
extraction result handling, enrichment classification with fallback,
title-based deduplication, and batch sync with rate-limit retry.
External effects (the Claude oracle, the Google Sheets store) are
represented by explicit outcome values handed to the embedded functions;
everything else is translated function-for-function from the Python source.

Python's string methods are modelled by structurally recursive Lean
functions over the character list (`pyStrip` for `str.strip()`, `pyLower`
for `str.lower()`, `pyTake n` for `s[:n]`, `pySplitComma` for
`s.split(',')`), so that every embedded function evaluates by reduction.
-/

set_option maxRecDepth 16384

/-! ## Models of the Python string methods -/

/-- Python `str.strip()`: drop whitespace from both ends. -/
def pyStrip (s : String) : String :=
  ⟨((s.data.dropWhile Char.isWhitespace).reverse.dropWhile
      Char.isWhitespace).reverse⟩

/-- Python `str.lower()`: lowercase every character. -/
def pyLower (s : String) : String :=
  ⟨s.data.map Char.toLower⟩

/-- Python `s[:n]`: the first `n` characters. -/
def pyTake (n : Nat) (s : String) : String :=
  ⟨s.data.take n⟩

/-- Helper for `pySplitComma`: `acc` holds the current field reversed. -/
def pySplitCommaAux : List Char → List Char → List String
  | [], acc => [⟨acc.reverse⟩]
  | c :: cs, acc =>
    if c = ',' then (⟨acc.reverse⟩ : String) :: pySplitCommaAux cs []
    else pySplitCommaAux cs (c :: acc)

/-- Python `s.split(',')`: split on every comma, keeping empty fields
(`''.split(',') == ['']`, `'a,,b'.split(',') == ['a','','b']`). -/
def pySplitComma (s : String) : List String :=
  pySplitCommaAux s.data []

/-! ## Deduplication engine (`extract_feedback.py`, `deduplicate_feedback`) -/

/-- Title normalization used by `deduplicate_feedback`:
Python `title.lower().strip()`. -/
def normalizeTitle (s : String) : String := pyStrip (pyLower s)

/-- A feedback item as consumed by `deduplicate_feedback`; the function
reads only `item['title']`, the rest of the dict rides along opaquely. -/
structure DedupItem where
  title : String
  payload : String
  deriving DecidableEq, Repr

/-- The loop of `deduplicate_feedback`: walk the items in order, keep an
item iff its normalized title is not in `seen`, extending `seen` with each
kept title. -/
def dedupeGo (seen : List String) : List DedupItem → List DedupItem
  | [] => []
  | item :: rest =>
    let t := normalizeTitle item.title
    if t ∈ seen then dedupeGo seen rest
    else item :: dedupeGo (t :: seen) rest

/-- `deduplicate_feedback(feedback_items, existing_titles)`: seeds the seen
set with the normalized existing titles, then filters in input order. -/
def deduplicate_feedback (feedback_items : List DedupItem)
    (existing_titles : List String) : List DedupItem :=
  dedupeGo (existing_titles.map normalizeTitle) feedback_items

lemma dedupeGo_sublist (seen : List String) (l : List DedupItem) :
    (dedupeGo seen l).Sublist l := by
  induction l generalizing seen with
  | nil => simp [dedupeGo]
  | cons item rest ih =>
    simp only [dedupeGo]
    split
    · exact (ih seen).cons _
    · exact (ih _).cons₂ _

lemma dedupeGo_not_mem_seen (seen : List String) (l : List DedupItem) :
    ∀ x ∈ dedupeGo seen l, normalizeTitle x.title ∉ seen := by
  induction l generalizing seen with
  | nil => simp [dedupeGo]
  | cons item rest ih =>
    intro x hx
    simp only [dedupeGo] at hx
    split at hx
    · exact ih seen x hx
    · rcases List.mem_cons.mp hx with h | h
      · subst h; assumption
      · intro hmem
        exact ih _ x h (List.mem_cons_of_mem _ hmem)

lemma dedupeGo_nodup (seen : List String) (l : List DedupItem) :
    ((dedupeGo seen l).map (fun x => normalizeTitle x.title)).Nodup := by
  induction l generalizing seen with
  | nil => simp [dedupeGo]
  | cons item rest ih =>
    simp only [dedupeGo]
    split
    · exact ih seen
    · refine List.nodup_cons.mpr ⟨?_, ih _⟩
      intro hmem
      rcases List.mem_map.mp hmem with ⟨y, hy, hyt⟩
      exact dedupeGo_not_mem_seen _ _ y hy (hyt ▸ List.mem_cons_self _ _)

lemma dedupeGo_first_occurrence (l : List DedupItem) :
    ∀ (seen : List String) (i : Nat) (hi : i < l.length),
      normalizeTitle (l.get ⟨i, hi⟩).title ∉ seen →
      (∀ j (hj : j < i),
        normalizeTitle (l.get ⟨j, Nat.lt_trans hj hi⟩).title ≠
          normalizeTitle (l.get ⟨i, hi⟩).title) →
      l.get ⟨i, hi⟩ ∈ dedupeGo seen l := by
  induction l with
  | nil => intro seen i hi; exact absurd hi (by simp)
  | cons item rest ih =>
    intro seen i hi hseen hfirst
    match i with
    | 0 =>
      simp only [List.get] at hseen ⊢
      simp only [dedupeGo]
      rw [if_neg hseen]
      exact List.mem_cons_self _ _
    | i + 1 =>
      have hi' : i < rest.length := Nat.lt_of_succ_lt_succ hi
      simp only [List.get] at hseen hfirst ⊢
      simp only [dedupeGo]
      split
      · -- head title already seen: recurse with the same seen set
        refine ih seen i hi' hseen ?_
        intro j hj
        exact hfirst (j + 1) (Nat.succ_lt_succ hj)
      · -- head kept: recurse with the extended seen set
        refine List.mem_cons_of_mem _ (ih _ i hi' ?_ ?_)
        · intro hmem
          rcases List.mem_cons.mp hmem with h | h
          · exact hfirst 0 (Nat.succ_pos _) h.symm
          · exact hseen h
        · intro j hj
          exact hfirst (j + 1) (Nat.succ_lt_succ hj)

/-- C3: deduplication processes candidates in input order, keeps the first
occurrence of each normalized title, drops later occurrences and known
titles, preserves relative order, and its output has no more elements than
its input, with pairwise-distinct normalized titles all absent from the
known set. -/
theorem deduplicate_feedback_correct (batch : List DedupItem)
    (known : List String) :
    (deduplicate_feedback batch known).Sublist batch ∧
    (deduplicate_feedback batch known).length ≤ batch.length ∧
    ((deduplicate_feedback batch known).map
      (fun x => normalizeTitle x.title)).Nodup ∧
    (∀ x ∈ deduplicate_feedback batch known,
      normalizeTitle x.title ∉ known.map normalizeTitle) ∧
    (∀ (i : Nat) (hi : i < batch.length),
      normalizeTitle (batch.get ⟨i, hi⟩).title ∉ known.map normalizeTitle →
      (∀ j (hj : j < i),
        normalizeTitle (batch.get ⟨j, Nat.lt_trans hj hi⟩).title ≠
          normalizeTitle (batch.get ⟨i, hi⟩).title) →
      batch.get ⟨i, hi⟩ ∈ deduplicate_feedback batch known) := by
  refine ⟨dedupeGo_sublist _ _, (dedupeGo_sublist _ _).length_le, dedupeGo_nodup _ _,
    fun x hx => dedupeGo_not_mem_seen _ _ x hx, ?_⟩
  intro i hi hknown hfirst
  exact dedupeGo_first_occurrence batch _ i hi hknown hfirst

/-- Witness for C3 at the spec's own scenario: `"Slow export"` and
`"slow export  "` collide after normalization; only the first survives. -/
theorem deduplicate_feedback_correct_witness :
    (deduplicate_feedback
        [⟨"Slow export", "a"⟩, ⟨"slow export  ", "b"⟩] []).Sublist
      [⟨"Slow export", "a"⟩, ⟨"slow export  ", "b"⟩] ∧
    (⟨"Slow export", "a"⟩ : DedupItem) ∈
      deduplicate_feedback [⟨"Slow export", "a"⟩, ⟨"slow export  ", "b"⟩] [] := by
  refine ⟨(deduplicate_feedback_correct _ _).1, ?_⟩
  exact (deduplicate_feedback_correct
      [⟨"Slow export", "a"⟩, ⟨"slow export  ", "b"⟩] []).2.2.2.2 0 (by decide)
    (by decide) (by intro j hj; exact absurd hj (by omega))

/-! ## Enrichment engine (`enrich_metadata.py`) -/

/-- A Python dict field that may hold either a string or a list of strings
(`attendees` and `tags` arrive in both shapes). -/
inductive StrOrList where
  | str (s : String)
  | list (l : List String)
  deriving DecidableEq, Repr

/-- Python `[a.strip() for a in s.split(',') if a.strip()]`: comma-split,
trim each field, drop fields that trim to empty. -/
def commaFields (s : String) : List String :=
  ((pySplitComma s).map pyStrip).filter (fun a => a ≠ "")

/-- A feedback item as consumed by the enrichment engine. -/
structure EnrichItem where
  title : String
  description : String
  use_case : String
  raw_context : String
  attendees : StrOrList
  tags : StrOrList
  segment : String
  department : String
  segment_confidence : ℚ
  department_confidence : ℚ
  deriving DecidableEq, Repr

/-- Attendee list for the enrichment payload: a string field is
comma-split with empties dropped, a list field is used as-is. -/
def enrichAttendeesList : StrOrList → List String
  | .str s => commaFields s
  | .list l => l

/-- The tag list already on an item, as read by `enrich_batch`. -/
def existingTagsList : StrOrList → List String
  | .str s => commaFields s
  | .list l => l

/-- `attendees_str` slot of the enrichment payload:
`', '.join(attendees) if attendees else "(not provided)"`. -/
def attendeesSlot (item : EnrichItem) : String :=
  let l := enrichAttendeesList item.attendees
  if l.isEmpty then "(not provided)" else String.intercalate ", " l

/-- Description slot of the enrichment payload:
`description[:300] if description else "(not provided)"` where
`description = feedback_item.get('description', '').strip()`. -/
def descriptionSlot (item : EnrichItem) : String :=
  let d := pyStrip item.description
  if d = "" then "(not provided)" else pyTake 300 d

/-- Use-case slot of the enrichment payload (stripped, truncated to 200). -/
def useCaseSlot (item : EnrichItem) : String :=
  let u := pyStrip item.use_case
  if u = "" then "(not provided)" else pyTake 200 u

/-- Raw-context slot of the enrichment payload (stripped, truncated to 200). -/
def rawContextSlot (item : EnrichItem) : String :=
  let r := pyStrip item.raw_context
  if r = "" then "(not provided)" else pyTake 200 r

/-- The `user_prompt` string built by `enrich_feedback_item` and sent to
the oracle. -/
def enrich_user_prompt (item : EnrichItem) : String :=
  "Analyze this feedback item and return enrichment JSON:\n\n**Attendees:** "
    ++ attendeesSlot item
    ++ "\n**Description:** " ++ descriptionSlot item
    ++ "\n**Use Case:** " ++ useCaseSlot item
    ++ "\n**Raw Context:** " ++ rawContextSlot item
    ++ "\n\nReturn only valid JSON with segment, department, enriched_tags, segment_confidence, department_confidence, and reasoning.\n"

/-- The JSON object parsed from the oracle's text, before the required-field
check: each expected key may be present or absent. -/
structure ParsedEnrichment where
  segment : Option String
  department : Option String
  enriched_tags : Option (List String)
  segment_confidence : Option ℚ
  department_confidence : Option ℚ
  reasoning : Option String
  deriving DecidableEq, Repr

/-- Outcome of the oracle call plus JSON decode inside
`enrich_feedback_item`: the API call raised, `json.loads` raised, or a JSON
object was obtained. -/
inductive EnrichOracleResp where
  | failure (msg : String)
  | parseError (msg : String)
  | parsed (p : ParsedEnrichment)
  deriving DecidableEq, Repr

/-- The enrichment dict returned by `enrich_feedback_item` (`reasoning` is
not in the required-field list, so it can be absent on the success path). -/
structure EnrichmentResult where
  segment : String
  department : String
  enriched_tags : List String
  segment_confidence : ℚ
  department_confidence : ℚ
  reasoning : Option String
  deriving DecidableEq, Repr

/-- The fallback enrichment built in both `except` branches. -/
def fallbackEnrichment (reason : String) : EnrichmentResult :=
  ⟨"Other", "Other", [], 0, 0, some reason⟩

/-- The field named by the `ValueError` raised by the required-field loop:
the first absent key in the loop's order. -/
def firstMissingField (p : ParsedEnrichment) : String :=
  if p.segment.isNone then "segment"
  else if p.department.isNone then "department"
  else if p.enriched_tags.isNone then "enriched_tags"
  else if p.segment_confidence.isNone then "segment_confidence"
  else "department_confidence"

/-- `enrich_feedback_item`: dry-run mock, then try-call/parse/validate with
taxonomy post-validation, falling back to the `"Other"` result on JSON
errors (`Parse error: ...`) and on every other exception (`Error: ...`),
including the `ValueError` for a missing required field. -/
def enrich_feedback_item (dry_run : Bool) (segments departments : List String)
    (resp : EnrichOracleResp) : EnrichmentResult :=
  if dry_run then
    ⟨"Other", "Other", ["dry-run"], 1/2, 1/2, some "Dry run mode - no API call made"⟩
  else
    match resp with
    | .failure msg => fallbackEnrichment ("Error: " ++ msg)
    | .parseError msg => fallbackEnrichment ("Parse error: " ++ msg)
    | .parsed p =>
      match p.segment, p.department, p.enriched_tags,
          p.segment_confidence, p.department_confidence with
      | some seg, some dept, some tags, some segc, some deptc =>
        let seg' := if seg ∈ segments then seg else "Other"
        let segc' := if seg ∈ segments then segc else 0
        let dept' := if dept ∈ departments then dept else "Other"
        let deptc' := if dept ∈ departments then deptc else 0
        ⟨seg', dept', tags, segc', deptc', p.reasoning⟩
      | _, _, _, _, _ =>
        fallbackEnrichment ("Error: Missing required field: " ++ firstMissingField p)

/-- Loop body of `enrich_batch`: writes the classification onto the item,
applies the 0.5 confidence floor when `skip_low_confidence` is set, and
merges tags via `list(set(existing_tags + enriched_tags))`. -/
def enrich_batch_step (skip_low_confidence : Bool) (item : EnrichItem)
    (enrichment : EnrichmentResult) : EnrichItem :=
  let seg := if skip_low_confidence ∧ enrichment.segment_confidence < 1/2 then
    "Uncertain" else enrichment.segment
  let dept := if skip_low_confidence ∧ enrichment.department_confidence < 1/2 then
    "Uncertain" else enrichment.department
  let all_tags := (existingTagsList item.tags ++ enrichment.enriched_tags).dedup
  { item with
    segment := seg
    department := dept
    segment_confidence := enrichment.segment_confidence
    department_confidence := enrichment.department_confidence
    tags := .list all_tags }

/-- `enrich_batch`: enrich each item in order against its oracle response. -/
def enrich_batch (dry_run skip_low_confidence : Bool)
    (segments departments : List String)
    (items : List (EnrichItem × EnrichOracleResp)) : List EnrichItem :=
  items.map (fun p =>
    enrich_batch_step skip_low_confidence p.1
      (enrich_feedback_item dry_run segments departments p.2))

/-- Number of elements in an item's tag collection. -/
def itemTagCount (item : EnrichItem) : Nat := (existingTagsList item.tags).length

/-- C2: every failure of the enrichment chain — transport error, JSON parse
error, or missing required field — is absorbed: `enrich_feedback_item`
returns the deterministic fallback with both classifications `"Other"`,
empty tags, zero confidences, and a reasoning string naming the failure. -/
theorem enrich_feedback_item_fallback (segments departments : List String) :
    (∀ msg, enrich_feedback_item false segments departments (.failure msg) =
      ⟨"Other", "Other", [], 0, 0, some ("Error: " ++ msg)⟩) ∧
    (∀ msg, enrich_feedback_item false segments departments (.parseError msg) =
      ⟨"Other", "Other", [], 0, 0, some ("Parse error: " ++ msg)⟩) ∧
    (∀ p : ParsedEnrichment,
      (p.segment = none ∨ p.department = none ∨ p.enriched_tags = none ∨
        p.segment_confidence = none ∨ p.department_confidence = none) →
      enrich_feedback_item false segments departments (.parsed p) =
        ⟨"Other", "Other", [], 0, 0,
          some ("Error: Missing required field: " ++ firstMissingField p)⟩) := by
  refine ⟨fun msg => rfl, fun msg => rfl, ?_⟩
  intro p h
  obtain ⟨s, d, t, sc, dc, r⟩ := p
  cases s <;> cases d <;> cases t <;> cases sc <;> cases dc <;>
    simp_all [enrich_feedback_item, fallbackEnrichment, firstMissingField]

/-- Witness for C2: an object lacking `segment` yields the fallback naming
that field. -/
theorem enrich_feedback_item_fallback_witness :
    enrich_feedback_item false ["Pharma"] ["HEOR"]
        (.parsed ⟨none, some "HEOR", some [], some 1, some 1, none⟩) =
      ⟨"Other", "Other", [], 0, 0,
        some ("Error: Missing required field: "
          ++ firstMissingField ⟨none, some "HEOR", some [], some 1, some 1, none⟩)⟩ :=
  (enrich_feedback_item_fallback ["Pharma"] ["HEOR"]).2.2
    ⟨none, some "HEOR", some [], some 1, some 1, none⟩ (Or.inl rfl)

lemma enrich_feedback_item_segment_mem (dry_run : Bool)
    (segments departments : List String) (r : EnrichOracleResp) :
    (enrich_feedback_item dry_run segments departments r).segment ∈ segments ∨
      (enrich_feedback_item dry_run segments departments r).segment = "Other" := by
  cases dry_run with
  | true => exact Or.inr rfl
  | false =>
    rcases r with msg | msg | p
    · exact Or.inr rfl
    · exact Or.inr rfl
    · obtain ⟨s, d, t, sc, dc, rr⟩ := p
      cases s <;> cases d <;> cases t <;> cases sc <;> cases dc <;>
        try exact Or.inr rfl
      rename_i sv dv tv scv dcv
      by_cases hs : sv ∈ segments
      · left; simp [enrich_feedback_item, hs]
      · right; simp [enrich_feedback_item, hs]

lemma enrich_feedback_item_department_mem (dry_run : Bool)
    (segments departments : List String) (r : EnrichOracleResp) :
    (enrich_feedback_item dry_run segments departments r).department ∈ departments ∨
      (enrich_feedback_item dry_run segments departments r).department = "Other" := by
  cases dry_run with
  | true => exact Or.inr rfl
  | false =>
    rcases r with msg | msg | p
    · exact Or.inr rfl
    · exact Or.inr rfl
    · obtain ⟨s, d, t, sc, dc, rr⟩ := p
      cases s <;> cases d <;> cases t <;> cases sc <;> cases dc <;>
        try exact Or.inr rfl
      rename_i sv dv tv scv dcv
      by_cases hd : dv ∈ departments
      · left; simp [enrich_feedback_item, hd]
      · right; simp [enrich_feedback_item, hd]

/-- C5: after `enrich_batch`, every item's segment is a taxonomy segment or
`"Other"` or `"Uncertain"` (likewise for department), and with the
confidence floor enabled a confidence below 0.5 forces `"Uncertain"`. -/
theorem enrich_batch_segment_department_invariant
    (dry_run skip : Bool) (segments departments : List String)
    (items : List (EnrichItem × EnrichOracleResp)) :
    ∀ out ∈ enrich_batch dry_run skip segments departments items,
      (out.segment ∈ segments ∨ out.segment = "Other" ∨ out.segment = "Uncertain") ∧
      (out.department ∈ departments ∨ out.department = "Other" ∨
        out.department = "Uncertain") ∧
      (skip = true → out.segment_confidence < 1/2 → out.segment = "Uncertain") ∧
      (skip = true → out.department_confidence < 1/2 →
        out.department = "Uncertain") := by
  intro out hout
  rw [enrich_batch, List.mem_map] at hout
  obtain ⟨⟨it, resp⟩, _, rfl⟩ := hout
  refine ⟨?_, ?_, ?_, ?_⟩
  · have h := enrich_feedback_item_segment_mem dry_run segments departments resp
    simp only [enrich_batch_step]
    split_ifs with hc
    · exact Or.inr (Or.inr rfl)
    · rcases h with h | h
      · exact Or.inl h
      · exact Or.inr (Or.inl h)
  · have h := enrich_feedback_item_department_mem dry_run segments departments resp
    simp only [enrich_batch_step]
    split_ifs with hc
    · exact Or.inr (Or.inr rfl)
    · rcases h with h | h
      · exact Or.inl h
      · exact Or.inr (Or.inl h)
  · intro hskip hconf
    simp only [enrich_batch_step] at hconf ⊢
    exact if_pos ⟨hskip, hconf⟩
  · intro hskip hconf
    simp only [enrich_batch_step] at hconf ⊢
    exact if_pos ⟨hskip, hconf⟩

/-- A concrete item used to instantiate the enrichment theorems. -/
def sampleEnrichItem : EnrichItem :=
  ⟨"Slow export", "Export takes minutes", "Export a cohort", "raw notes",
    .list ["Alice"], .list [], "", "", 0, 0⟩

/-- Witness for C5: with the floor enabled, a failed enrichment (confidence
0.0) leaves the item's segment as `"Uncertain"`. -/
theorem enrich_batch_segment_department_invariant_witness :
    (enrich_batch_step true sampleEnrichItem
      (enrich_feedback_item false ["Pharma"] ["HEOR"] (.failure "boom"))).segment =
      "Uncertain" := by
  have h := enrich_batch_segment_department_invariant false true ["Pharma"] ["HEOR"]
    [(sampleEnrichItem, .failure "boom")]
    (enrich_batch_step true sampleEnrichItem
      (enrich_feedback_item false ["Pharma"] ["HEOR"] (.failure "boom")))
    (by simp [enrich_batch])
  exact h.2.2.1 rfl
    (by norm_num [enrich_batch_step, enrich_feedback_item, fallbackEnrichment])

/-- C6: a parsed enrichment whose segment is outside the segment taxonomy
is forced to `"Other"` with confidence 0.0, and likewise for department. -/
theorem enrich_feedback_item_taxonomy_forcing (segments departments : List String)
    (seg dept : String) (tags : List String) (segc deptc : ℚ) (r : Option String) :
    (seg ∉ segments →
      (enrich_feedback_item false segments departments
        (.parsed ⟨some seg, some dept, some tags, some segc, some deptc, r⟩)).segment
          = "Other" ∧
      (enrich_feedback_item false segments departments
        (.parsed ⟨some seg, some dept, some tags, some segc, some deptc, r⟩)).segment_confidence
          = 0) ∧
    (dept ∉ departments →
      (enrich_feedback_item false segments departments
        (.parsed ⟨some seg, some dept, some tags, some segc, some deptc, r⟩)).department
          = "Other" ∧
      (enrich_feedback_item false segments departments
        (.parsed ⟨some seg, some dept, some tags, some segc, some deptc, r⟩)).department_confidence
          = 0) := by
  refine ⟨fun h => ⟨?_, ?_⟩, fun h => ⟨?_, ?_⟩⟩ <;> simp [enrich_feedback_item, h]

/-- Witness for C6 at the spec's scenario: segment `"NotARealSegment"` with
reported confidence 0.9 becomes `"Other"` with confidence 0.0. -/
theorem enrich_feedback_item_taxonomy_forcing_witness :
    (enrich_feedback_item false ["Pharma", "Biotech"] ["HEOR"]
      (.parsed ⟨some "NotARealSegment", some "HEOR", some [], some (9/10), some 1,
        none⟩)).segment = "Other" ∧
    (enrich_feedback_item false ["Pharma", "Biotech"] ["HEOR"]
      (.parsed ⟨some "NotARealSegment", some "HEOR", some [], some (9/10), some 1,
        none⟩)).segment_confidence = 0 :=
  (enrich_feedback_item_taxonomy_forcing ["Pharma", "Biotech"] ["HEOR"]
    "NotARealSegment" "HEOR" [] (9/10) 1 none).1 (by decide)

/-- An item with six pre-existing tags, for the tag-merge counterexample. -/
def sixTagItem : EnrichItem :=
  { sampleEnrichItem with tags := .list ["t1", "t2", "t3", "t4", "t5", "t6"] }

/-- C7 counterexample: the tag merge enforces no 10-element cap — six
existing tags merged with six distinct enriched tags leave 12 tags. -/
theorem enrich_tags_cap_counterexample :
    ((enrich_batch false false ["Pharma"] ["HEOR"]
        [(sixTagItem, .parsed ⟨some "Pharma", some "HEOR",
          some ["u1", "u2", "u3", "u4", "u5", "u6"], some 1, some 1, none⟩)]).map
      itemTagCount) = [12] ∧
    ¬ (∀ out ∈ enrich_batch false false ["Pharma"] ["HEOR"]
        [(sixTagItem, .parsed ⟨some "Pharma", some "HEOR",
          some ["u1", "u2", "u3", "u4", "u5", "u6"], some 1, some 1, none⟩)],
        itemTagCount out ≤ 10) := by decide

/-- C7 amended: the merge stores the duplicate-collapsed union of the
item's tags and the enriched tags, with no size cap — the count is bounded
only by the combined count of the two tag lists. -/
theorem enrich_tags_merge_union (skip : Bool) (item : EnrichItem)
    (e : EnrichmentResult) :
    (enrich_batch_step skip item e).tags =
      .list ((existingTagsList item.tags ++ e.enriched_tags).dedup) ∧
    itemTagCount (enrich_batch_step skip item e) ≤
      (existingTagsList item.tags).length + e.enriched_tags.length := by
  constructor
  · simp [enrich_batch_step]
  · show ((existingTagsList item.tags ++ e.enriched_tags).dedup).length ≤ _
    exact le_trans (List.dedup_sublist _).length_le (by simp)

/-- An item whose description has leading whitespace and 301 characters. -/
def paddedDescItem : EnrichItem :=
  { sampleEnrichItem with description := ⟨' ' :: List.replicate 300 'a'⟩ }

/-- C8 counterexample: the payload's description slot is the truncation of
the *stripped* description, so for a description with leading whitespace it
differs from the first 300 characters of the description itself. -/
theorem enrich_truncation_counterexample :
    300 < paddedDescItem.description.length ∧
    descriptionSlot paddedDescItem ≠ pyTake 300 paddedDescItem.description := by
  decide

/-- C8 amended: whenever the stripped description exceeds 300 characters,
the payload slot is exactly its first 300 characters; likewise use case and
raw context at 200. -/
theorem enrich_truncation_amended (item : EnrichItem) :
    (300 < (pyStrip item.description).length →
      descriptionSlot item = pyTake 300 (pyStrip item.description)) ∧
    (200 < (pyStrip item.use_case).length →
      useCaseSlot item = pyTake 200 (pyStrip item.use_case)) ∧
    (200 < (pyStrip item.raw_context).length →
      rawContextSlot item = pyTake 200 (pyStrip item.raw_context)) := by
  refine ⟨fun h => ?_, fun h => ?_, fun h => ?_⟩
  · unfold descriptionSlot
    rw [if_neg]
    intro he
    rw [he] at h
    simp at h
  · unfold useCaseSlot
    rw [if_neg]
    intro he
    rw [he] at h
    simp at h
  · unfold rawContextSlot
    rw [if_neg]
    intro he
    rw [he] at h
    simp at h

/-- An item whose description strips to 301 characters. -/
def longDescItem : EnrichItem :=
  { sampleEnrichItem with description := ⟨' ' :: List.replicate 301 'a'⟩ }

/-- Witness for C8's amended statement at a 301-char stripped description. -/
theorem enrich_truncation_amended_witness :
    descriptionSlot longDescItem = pyTake 300 (pyStrip longDescItem.description) :=
  (enrich_truncation_amended longDescItem).1 (by decide)

/-! ## Extraction engine (`extract_feedback.py`) -/

/-- The keys an array element from the extraction oracle may carry
(per-element required-field validation would look at the first eight). -/
structure ExtractedFields where
  title : Option String
  product : Option String
  category : Option String
  priority : Option String
  description : Option String
  use_case : Option String
  impact : Option String
  raw_context : Option String
  quote : Option String
  deriving DecidableEq, Repr

/-- One element of the parsed JSON array: a JSON object, or any non-object
value (iterating `item.update` over a non-dict raises and the whole note's
output is discarded). -/
inductive JsonElem where
  | obj (fields : ExtractedFields)
  | nonObj
  deriving DecidableEq, Repr

/-- Whether an element is a JSON object. -/
def JsonElem.isObj : JsonElem → Bool
  | .obj _ => true
  | .nonObj => false

/-- Outcome of the oracle call plus fence-stripping plus `json.loads`
inside `extract_feedback_with_claude`. -/
inductive ExtractOracleResp where
  | failure (msg : String)
  | parseError (msg : String)
  | parsedArray (elems : List JsonElem)
  | parsedNonArray
  deriving DecidableEq, Repr

/-- Meeting metadata as produced by `extract_meeting_metadata`. -/
structure MeetingMetadata where
  meeting_type : String
  meeting_date : String
  meeting_title : String
  attendees : List String
  source_url : String
  deriving DecidableEq, Repr

/-- A feedback item after the metadata-stamping loop. -/
structure StampedItem where
  fields : ExtractedFields
  meeting_type : String
  meeting_date : String
  attendees : List String
  source : String
  source_url : String
  created_date : String
  updated_date : String
  status : String
  internal : Bool
  deriving DecidableEq, Repr

/-- The `item.update(...)` stamping applied to each array element:
meeting metadata plus run-time provenance. -/
def stampItem (metadata : MeetingMetadata) (today : String)
    (f : ExtractedFields) : StampedItem :=
  ⟨f, metadata.meeting_type, metadata.meeting_date, metadata.attendees,
    "Manual", metadata.source_url, today, today, "New", false⟩

/-- `extract_feedback_with_claude`: a failed call, unparseable output, a
non-array JSON value, or a non-object array element all yield `[]` (the
exception handlers return `[]`); otherwise every object element is stamped
and returned — there is no per-element required-field check. -/
def extract_feedback_with_claude (metadata : MeetingMetadata) (today : String) :
    ExtractOracleResp → List StampedItem
  | .failure _ => []
  | .parseError _ => []
  | .parsedNonArray => []
  | .parsedArray elems =>
    if elems.all JsonElem.isObj then
      elems.filterMap (fun e =>
        match e with
        | .obj f => some (stampItem metadata today f)
        | .nonObj => none)
    else []

/-- Attendee derivation inside `extract_meeting_metadata`:
`attendees = frontmatter.get('attendees', [])`, then a string field is
comma-split with each entry stripped — and nothing else. -/
def extractMeetingAttendees : Option StrOrList → List String
  | none => []
  | some (.list l) => l
  | some (.str s) => (pySplitComma s).map pyStrip

/-- Concrete metadata used by the extraction theorems. -/
def sampleMetadata : MeetingMetadata :=
  ⟨"Call", "2024-03-01", "Weekly sync", ["Alice"], ""⟩

/-- An extraction element with every required field except `title`. -/
def missingTitleFields : ExtractedFields :=
  ⟨none, some "NeuroBlu Core", some "Bug", some "P1", some "Exports hang",
    some "Export a cohort", some "Blocks analysis", some "raw quote", none⟩

/-- C1 counterexample: an array element missing the required `title` field
is NOT discarded — extraction returns it stamped, not the empty sequence. -/
theorem extract_validation_counterexample :
    missingTitleFields.title = none ∧
    extract_feedback_with_claude sampleMetadata "2024-01-01"
        (.parsedArray [.obj missingTitleFields]) =
      [stampItem sampleMetadata "2024-01-01" missingTitleFields] ∧
    extract_feedback_with_claude sampleMetadata "2024-01-01"
        (.parsedArray [.obj missingTitleFields]) ≠ ([] : List StampedItem) := by
  decide

/-- C1 amended: extraction does no required-field validation. The note's
output is empty exactly on call failure, parse failure, a non-array value,
or a non-object element; when every element is an object, all of them are
stamped and returned, fields missing or not. -/
theorem extract_feedback_with_claude_no_validation (metadata : MeetingMetadata)
    (today : String) :
    (∀ msg, extract_feedback_with_claude metadata today (.failure msg) = []) ∧
    (∀ msg, extract_feedback_with_claude metadata today (.parseError msg) = []) ∧
    (extract_feedback_with_claude metadata today .parsedNonArray = []) ∧
    (∀ elems, JsonElem.nonObj ∈ elems →
      extract_feedback_with_claude metadata today (.parsedArray elems) = []) ∧
    (∀ fieldsList : List ExtractedFields,
      extract_feedback_with_claude metadata today
          (.parsedArray (fieldsList.map JsonElem.obj)) =
        fieldsList.map (stampItem metadata today)) := by
  refine ⟨fun msg => rfl, fun msg => rfl, rfl, ?_, ?_⟩
  · intro elems hmem
    simp only [extract_feedback_with_claude]
    rw [if_neg]
    intro hall
    rw [List.all_eq_true] at hall
    simpa [JsonElem.isObj] using hall _ hmem
  · intro fieldsList
    have hall : (fieldsList.map JsonElem.obj).all JsonElem.isObj = true := by
      simp [List.all_eq_true, JsonElem.isObj]
    simp only [extract_feedback_with_claude, hall, if_true]
    clear hall
    induction fieldsList with
    | nil => rfl
    | cons f rest ih => simpa [List.filterMap_cons] using ih

/-- Witness for C1's amended statement: a non-object element empties the
note's output. -/
theorem extract_feedback_with_claude_no_validation_witness :
    extract_feedback_with_claude sampleMetadata "2024-01-01"
      (.parsedArray [.nonObj]) = [] :=
  (extract_feedback_with_claude_no_validation sampleMetadata "2024-01-01").2.2.2.1
    [.nonObj] (List.mem_singleton_self _)

/-- C9 counterexample: the extraction attendee split keeps empty entries —
`"Alice, , Bob"` yields a middle empty string, not `["Alice", "Bob"]`. -/
theorem extract_attendees_counterexample :
    extractMeetingAttendees (some (.str "Alice, , Bob")) = ["Alice", "", "Bob"] ∧
    extractMeetingAttendees (some (.str "Alice, , Bob")) ≠ ["Alice", "Bob"] ∧
    "" ∈ extractMeetingAttendees (some (.str "Alice, , Bob")) := by
  decide

/-- C9 amended: a missing frontmatter field gives `[]`, a structured list
is taken as-is, and a string field is comma-split with every entry
stripped but empty entries retained (one entry per comma-separated field). -/
theorem extractMeetingAttendees_spec :
    (extractMeetingAttendees none = []) ∧
    (∀ l, extractMeetingAttendees (some (.list l)) = l) ∧
    (∀ s, extractMeetingAttendees (some (.str s)) = (pySplitComma s).map pyStrip ∧
      (extractMeetingAttendees (some (.str s))).length = (pySplitComma s).length) := by
  exact ⟨rfl, fun l => rfl,
    fun s => ⟨rfl, by simp [extractMeetingAttendees]⟩⟩

/-! ## Batch sync engine (`sync_to_sheets.py`) -/

/-- The store's response to one `append_rows` attempt: success, an
`APIError` whose text mentions `RATE_LIMIT_EXCEEDED`, or any other
`APIError`. A run of `batch_append` consumes one response per attempt. -/
inductive AppendResp where
  | ok
  | rateLimit
  | apiError (msg : String)
  deriving DecidableEq, Repr

/-- Observable operations performed against the store (plus the backoff
sleep), in order. -/
inductive SyncEvent where
  | fetchTitles
  | append (nrows : Nat)
  | sleep (seconds : Nat)
  | readRowCount
  deriving DecidableEq, Repr

/-- The store's scripted state: whether the title-column read succeeds,
the raw title column (header included), and the row count of column A as
read after a successful append. -/
structure StoreScript where
  fetchOk : Bool
  colB : List String
  colACount : Nat
  deriving DecidableEq, Repr

/-- A feedback item as consumed by `sync_to_sheets.py`: a dict whose keys
other than `title` may be absent (`title` is indexed directly). -/
structure SyncItem where
  id : Option String
  title : String
  description : Option String
  source : Option String
  status : Option String
  priority : Option String
  product : Option String
  category : Option String
  segment : Option String
  department : Option String
  attendees : Option (List String)
  internal : Option Bool
  created_date : Option String
  updated_date : Option String
  tags : Option (List String)
  meeting_type : Option String
  meeting_date : Option String
  source_url : Option String
  use_case : Option String
  quote : Option String
  deriving DecidableEq, Repr

/-- `format_list`: `', '.join(str(x) for x in field if x)` on a list. -/
def format_list (l : List String) : String :=
  String.intercalate ", " (l.filter (fun x => x ≠ ""))

/-- Columns L and P:
`format_list(item.get('attendees', [])).split(',')[0] if item.get('attendees') else ''`. -/
def firstAttendeeCol (item : SyncItem) : String :=
  match item.attendees with
  | none => ""
  | some l => if l.isEmpty then "" else (pySplitComma (format_list l)).headD ""

/-- `format_row`: the 26-column row (A-Z). `now` stands for the timestamp
strings taken from `datetime.now()` and `hashT` for Python's `hash`, so
the generated id `f"FB-{timestamp}-{hash(title)}"[:20]` is deterministic
here (the Python code writes it back into the item; rebuilding the row
from the same item reproduces it). -/
def format_row (now : String) (hashT : String → Int) (item : SyncItem) :
    List String :=
  let genId := pyTake 20 ("FB-" ++ now ++ "-" ++ toString (hashT item.title))
  let rowId := match item.id with
    | some s => if s = "" then genId else s
    | none => genId
  [rowId,
    pyTake 100 item.title,
    item.description.getD "",
    item.source.getD "Manual",
    item.status.getD "New",
    item.priority.getD "P3",
    item.product.getD "Other",
    item.category.getD "Other",
    item.segment.getD "",
    item.department.getD "",
    item.segment.getD "",
    firstAttendeeCol item,
    "",
    "",
    if item.internal.getD false then "Y" else "N",
    firstAttendeeCol item,
    item.created_date.getD now,
    item.updated_date.getD now,
    format_list (item.attendees.getD []),
    format_list (item.tags.getD []),
    item.meeting_type.getD "",
    item.meeting_date.getD "",
    item.source.getD "Manual",
    item.source_url.getD "",
    item.use_case.getD "",
    item.quote.getD ""]

/-- `get_existing_titles`: column B minus the header, stripped and
lowercased, empties dropped; a failed read logs a warning and returns `[]`
(fail-open). -/
def get_existing_titles (store : StoreScript) : List String :=
  if store.fetchOk then
    ((store.colB.drop 1).filter (fun t => pyStrip t ≠ "")).map
      (fun t => pyLower (pyStrip t))
  else []

/-- `check_duplicate`: exact normalized-title match only; the similarity
`threshold` parameter is accepted and ignored, mirroring the source. -/
def check_duplicate (title : String) (existing_titles : List String)
    (threshold : ℚ) : Bool :=
  existing_titles.contains (pyLower (pyStrip title))

/-- The dict returned by `batch_append` on success. -/
structure SyncResult where
  synced : Nat
  skipped : Nat
  rows : List Nat
  deriving DecidableEq, Repr

/-- How a `batch_append` run ends: a result dict, a propagated non-rate-limit
store error, or the finite response script ran out while the code was still
retrying (the Python recursion has no retry bound of its own). -/
inductive SyncOutcome where
  | success (r : SyncResult)
  | storeError (msg : String)
  | exhausted
  deriving DecidableEq, Repr

/-- The state `batch_append` computes before attempting the bulk append:
the surviving items and rows after the optional dedup pass, the skipped
count, and the events logged so far. -/
structure SyncPrep where
  items2 : List SyncItem
  skipped : Nat
  ev1 : List SyncEvent
  rows2 : List (List String)
  deriving DecidableEq, Repr

/-- The dedup-and-format phase of `batch_append`: fetch existing titles
(when dedup is on), drop items whose normalized title matches one, count
them as skipped, format the survivors into rows. The in-batch pass keeps
no seen-set of its own — it only compares against the fetched titles. -/
def syncPrep (dedupe : Bool) (now : String) (hashT : String → Int)
    (store : StoreScript) (items : List SyncItem) : SyncPrep :=
  let existing := get_existing_titles store
  let items2 := if dedupe then
      items.filter (fun it => !(check_duplicate it.title existing (85/100)))
    else items
  let skipped := if dedupe then
      items.countP (fun it => check_duplicate it.title existing (85/100))
    else 0
  let ev1 := if dedupe then [SyncEvent.fetchTitles] else []
  ⟨items2, skipped, ev1, items2.map (format_row now hashT)⟩

/-- `batch_append(items, batch_size)`: early-return on an empty batch;
dedup-and-format via `syncPrep`; one bulk append per attempt whose outcome
is the head of the response script (the match on the script is hoisted to
the top of the definition); on a rate-limit error sleep 60 and re-enter
the whole function on the surviving items; any other store error
propagates. Returns the outcome plus the ordered event log. -/
def batch_append (dedupe : Bool) (now : String) (hashT : String → Int)
    (store : StoreScript) (batch_size : Nat) :
    List AppendResp → List SyncItem → SyncOutcome × List SyncEvent
  | [], items =>
    if items.isEmpty then (.success ⟨0, 0, []⟩, [])
    else
      let p := syncPrep dedupe now hashT store items
      if p.rows2.isEmpty then (.success ⟨0, p.skipped, []⟩, p.ev1)
      else (.exhausted, p.ev1 ++ [.append p.rows2.length])
  | .ok :: _, items =>
    if items.isEmpty then (.success ⟨0, 0, []⟩, [])
    else
      let p := syncPrep dedupe now hashT store items
      if p.rows2.isEmpty then (.success ⟨0, p.skipped, []⟩, p.ev1)
      else
        let last_row := store.colACount
        let first_new := last_row - p.rows2.length + 1
        (.success ⟨p.rows2.length, p.skipped, List.range' first_new p.rows2.length⟩,
          p.ev1 ++ [.append p.rows2.length, .readRowCount])
  | .apiError msg :: _, items =>
    if items.isEmpty then (.success ⟨0, 0, []⟩, [])
    else
      let p := syncPrep dedupe now hashT store items
      if p.rows2.isEmpty then (.success ⟨0, p.skipped, []⟩, p.ev1)
      else (.storeError msg, p.ev1 ++ [.append p.rows2.length])
  | .rateLimit :: rest, items =>
    if items.isEmpty then (.success ⟨0, 0, []⟩, [])
    else
      let p := syncPrep dedupe now hashT store items
      if p.rows2.isEmpty then (.success ⟨0, p.skipped, []⟩, p.ev1)
      else
        let res := batch_append dedupe now hashT store batch_size rest p.items2
        (res.1, p.ev1 ++ [.append p.rows2.length, .sleep 60] ++ res.2)

/-- C10: an empty batch returns synced 0, skipped 0, empty row list, and
performs no store operation at all. -/
theorem batch_append_empty (dedupe : Bool) (now : String) (hashT : String → Int)
    (store : StoreScript) (batch_size : Nat) (resps : List AppendResp) :
    batch_append dedupe now hashT store batch_size resps [] =
      (.success ⟨0, 0, []⟩, ([] : List SyncEvent)) := by
  cases resps with
  | nil => simp [batch_append]
  | cons h t => cases h <;> simp [batch_append]

/-- A concrete item used to instantiate the sync theorems. -/
def sampleSyncItem : SyncItem :=
  ⟨some "FB-1", "Slow export", none, none, none, none, none, none, none, none,
    none, none, none, none, none, none, none, none, none, none⟩

/-- C4 counterexample: a rate-limit error recurring beyond the single
retry is NOT fatal — with rate limits on the first two attempts and
success on the third, the sync succeeds after two 60-second sleeps. -/
theorem batch_append_retry_counterexample :
    batch_append false "20240101000000" (fun _ => 0) ⟨true, [], 5⟩ 100
        [.rateLimit, .rateLimit, .ok] [sampleSyncItem] =
      (.success ⟨1, 0, [5]⟩,
        [.append 1, .sleep 60, .append 1, .sleep 60, .append 1, .readRowCount]) := by
  decide

lemma batch_append_ok_cons (now : String) (hashT : String → Int)
    (store : StoreScript) (batch_size : Nat) (tail : List AppendResp)
    (items : List SyncItem) (h : items ≠ []) :
    batch_append false now hashT store batch_size (.ok :: tail) items =
      (.success ⟨items.length, 0,
          List.range' (store.colACount - items.length + 1) items.length⟩,
        [.append items.length, .readRowCount]) := by
  simp [batch_append, syncPrep, h]

lemma batch_append_apiError_cons (now : String) (hashT : String → Int)
    (store : StoreScript) (batch_size : Nat) (msg : String)
    (tail : List AppendResp) (items : List SyncItem) (h : items ≠ []) :
    batch_append false now hashT store batch_size (.apiError msg :: tail) items =
      (.storeError msg, [.append items.length]) := by
  simp [batch_append, syncPrep, h]

lemma batch_append_rateLimit_cons (now : String) (hashT : String → Int)
    (store : StoreScript) (batch_size : Nat) (rest : List AppendResp)
    (items : List SyncItem) (h : items ≠ []) :
    batch_append false now hashT store batch_size (.rateLimit :: rest) items =
      ((batch_append false now hashT store batch_size rest items).1,
        [SyncEvent.append items.length, SyncEvent.sleep 60] ++
          (batch_append false now hashT store batch_size rest items).2) := by
  simp [batch_append, syncPrep, h]

/-- C4 amended: on a rate-limit error the sync sleeps a fixed 60 and
retries the entire append via self-recursion with no retry bound — any
number of consecutive rate limits followed by a success still succeeds,
sleeping once per rate limit (never fatal by count); any other store
error propagates unrecovered with no sleep and no retry. -/
theorem batch_append_retry_policy (now : String) (hashT : String → Int)
    (store : StoreScript) (batch_size : Nat) (items : List SyncItem) :
    (∀ (n : Nat) (tail : List AppendResp), items ≠ [] →
      batch_append false now hashT store batch_size
          (List.replicate n .rateLimit ++ .ok :: tail) items =
        (.success ⟨items.length, 0,
            List.range' (store.colACount - items.length + 1) items.length⟩,
          (List.replicate n
              [SyncEvent.append items.length, SyncEvent.sleep 60]).join
            ++ [SyncEvent.append items.length, SyncEvent.readRowCount])) ∧
    (∀ (msg : String) (tail : List AppendResp), items ≠ [] →
      batch_append false now hashT store batch_size (.apiError msg :: tail) items =
        (.storeError msg, [.append items.length])) := by
  constructor
  · intro n tail h
    induction n with
    | zero => simpa using batch_append_ok_cons now hashT store batch_size tail items h
    | succ n ih =>
      rw [List.replicate_succ, List.cons_append,
        batch_append_rateLimit_cons now hashT store batch_size _ items h, ih]
      simp [List.replicate_succ]
  · intro msg tail h
    exact batch_append_apiError_cons now hashT store batch_size msg tail items h

/-- Witness for C4's amended statement: two rate limits then success give
two sleeps and a successful sync; a non-rate-limit store error propagates
at once. -/
theorem batch_append_retry_policy_witness :
    batch_append false "t" (fun _ => 0) ⟨true, [], 5⟩ 100
        (List.replicate 2 .rateLimit ++ .ok :: []) [sampleSyncItem] =
      (.success ⟨1, 0, [5]⟩,
        [.append 1, .sleep 60, .append 1, .sleep 60, .append 1, .readRowCount]) ∧
    batch_append false "t" (fun _ => 0) ⟨true, [], 5⟩ 100
        [.apiError "boom"] [sampleSyncItem] =
      (.storeError "boom", [.append 1]) := by
  constructor
  · exact (batch_append_retry_policy "t" (fun _ => 0) ⟨true, [], 5⟩ 100
      [sampleSyncItem]).1 2 [] (by simp)
  · exact (batch_append_retry_policy "t" (fun _ => 0) ⟨true, [], 5⟩ 100
      [sampleSyncItem]).2 "boom" [] (by simp)
